import Mathlib

/-!
Verification of the etl-debugger repository: a shallow embedding of the
scorer (`eval/scorer.py`), the diagnosis parser and agent loop
(`src/agent.py`), and the LLM protocol negotiator (`src/llm.py`).

Python strings are modelled as Lean `String` / `List Char`; Python string
indexing is by code point, which matches `List Char` indexing.  Python's
regular expressions are modelled by direct recursive functions whose
semantics (including greedy/lazy quantifier behaviour and backtracking)
were derived by hand from each concrete pattern; each definition's
doc comment records the pattern it embeds.  External collaborators
(the Ollama chat transport, `json.loads`, and the SQL execution tools,
which the spec excludes as black boxes) are modelled as oracle function
parameters.
-/

/-! ## Basic character and list helpers (models of Python primitives) -/

/-- Model of Python's whitespace class for `\s` and `str.strip()`
(ASCII part: space, tab, newline, carriage return, vertical tab, form feed). -/
def isPyWs (c : Char) : Bool :=
  c = ' ' || c = '\t' || c = '\n' || c = '\r' || c = '\x0b' || c = '\x0c'

/-- Model of Python's `\w` word-character class (ASCII part). -/
def isWordChar (c : Char) : Bool :=
  c.isAlpha || c.isDigit || c = '_'

/-- Lowercase a character list; models `str.lower()` on ASCII text. -/
def lowerL (cs : List Char) : List Char := cs.map Char.toLower

/-- Model of Python `str.strip()` on a character list. -/
def pyStripL (cs : List Char) : List Char :=
  ((cs.dropWhile isPyWs).reverse.dropWhile isPyWs).reverse

/-- Model of Python `str.strip()`. -/
def pyStrip (s : String) : String := String.mk (pyStripL s.data)

/-- Model of Python `str.split("\n")`. -/
def splitNl : List Char → List (List Char)
  | [] => [[]]
  | c :: rest =>
    if c = '\n' then [] :: splitNl rest
    else
      match splitNl rest with
      | l :: ls => (c :: l) :: ls
      | [] => [[c]]

/-- Model of Python `"\n".join(lines)`. -/
def joinNl : List (List Char) → List Char
  | [] => []
  | [l] => l
  | l :: l2 :: ls => l ++ '\n' :: joinNl (l2 :: ls)

/-- Index of the first occurrence of `pat` as a contiguous sublist of `cs`
(model of Python `str.find` returning an index, `none` for -1). -/
def firstSubstrIdx (pat : List Char) : List Char → Option Nat
  | [] => if pat.isPrefixOf ([] : List Char) then some 0 else none
  | c :: rest =>
    if pat.isPrefixOf (c :: rest) then some 0
    else (firstSubstrIdx pat rest).map (· + 1)

/-- Model of the Python `in` substring test. -/
def containsSub (pat cs : List Char) : Bool := (firstSubstrIdx pat cs).isSome

/-- Model of Python `str.startswith` (list-based so the kernel can
evaluate it). -/
def pyStartsWith (s pre : String) : Bool := pre.data.isPrefixOf s.data

/-- Model of Python `str.find(ch, start)`. -/
def firstCharFrom (cs : List Char) (ch : Char) (start : Nat) : Option Nat :=
  (firstSubstrIdx [ch] (cs.drop start)).map (· + start)

theorem length_dropWhile_le' (p : Char → Bool) (l : List Char) :
    (l.dropWhile p).length ≤ l.length := by
  induction l with
  | nil => simp
  | cons c rest ih =>
    by_cases h : p c
    · simp only [List.dropWhile_cons_of_pos h]
      exact Nat.le_trans ih (Nat.le_succ _)
    · simp [List.dropWhile_cons_of_neg h]

/-! ## Scorer: `eval/scorer.py` -/

/-- Character class of the term-extraction regex `[a-z0-9_]+`
(`_extract_terms`, scorer.py line 84). -/
def isTermChar (c : Char) : Bool :=
  ('a' ≤ c && c ≤ 'z') || ('0' ≤ c && c ≤ '9') || c = '_'

/-- Model of `re.findall(r"[a-z0-9_]+", text)`: the maximal runs of
term characters, in order.  `cur` accumulates the current run in reverse
(structural recursion so that the kernel can evaluate it). -/
def tokenizeAux : List Char → List Char → List (List Char)
  | cur, [] => if cur = [] then [] else [cur.reverse]
  | cur, c :: rest =>
    if isTermChar c then tokenizeAux (c :: cur) rest
    else if cur = [] then tokenizeAux [] rest
    else cur.reverse :: tokenizeAux [] rest

/-- Model of `re.findall(r"[a-z0-9_]+", text)`. -/
def tokenize (cs : List Char) : List (List Char) := tokenizeAux [] cs

/-- The fixed stop-word set of `_extract_terms` (scorer.py lines 87-94). -/
def stop_words : List String :=
  ["the", "a", "an", "is", "are", "was", "were", "be", "been", "being",
   "have", "has", "had", "do", "does", "did", "will", "would", "could",
   "should", "may", "might", "can", "shall", "to", "of", "in", "for",
   "on", "with", "at", "by", "from", "as", "into", "but", "or", "and",
   "not", "no", "it", "its", "that", "this", "which", "what", "who",
   "how", "when", "where", "why", "all", "each", "both", "few", "more"]

/-- Embedding of `_extract_terms` (scorer.py lines 81-96): lowercase the
text, take maximal `[a-z0-9_]+` runs, drop stop words and length-1 terms,
collect into a set. -/
def extract_terms (text : String) : Finset String :=
  (((tokenize (lowerL text.data)).map String.mk).filter
    (fun w => w ∉ stop_words ∧ w.length > 1)).toFinset

/-- Embedding of `score_root_cause` (scorer.py lines 8-34) at the default
threshold 0.5; the float ratio is modelled exactly in `ℚ` (all reachable
set sizes are far below any float-rounding regime). -/
def score_root_cause (predicted expected : String) : Bool :=
  if predicted = "" ∨ expected = "" then false
  else
    let pred_terms := extract_terms predicted
    let exp_terms := extract_terms expected
    if exp_terms = ∅ then false
    else
      let overlap := pred_terms ∩ exp_terms
      let ratio : ℚ := (overlap.card : ℚ) / (exp_terms.card : ℚ)
      decide ((1 / 2 : ℚ) ≤ ratio)

/-- Semantics of `re.search(r"\b(\d+)\b", line)` followed by `int(...)`:
the first maximal digit run whose neighbours are not word characters.
`prevWord` records whether the preceding character was a word character. -/
def findNumber : Bool → List Char → Option Nat
  | _, [] => none
  | prevWord, c :: rest =>
    if c.isDigit ∧ prevWord = false then
      match rest.dropWhile Char.isDigit with
      | [] => some (natOfDigits (c :: rest.takeWhile Char.isDigit))
      | a :: _ =>
        if isWordChar a then findNumber true rest
        else some (natOfDigits (c :: rest.takeWhile Char.isDigit))
    else findNumber (isWordChar c) rest
where
  natOfDigits (ds : List Char) : Nat :=
    ds.foldl (fun acc c => acc * 10 + (c.toNat - 48)) 0

/-- Embedding of `_extract_count`'s per-line loop (scorer.py lines 102-111):
skip separator/header lines, return the first standalone number found. -/
def countFromLines : List (List Char) → Option Nat
  | [] => none
  | line :: rest =>
    if containsSub "---".data line ∨ containsSub "cnt".data (lowerL line)
        ∨ containsSub "count".data (lowerL line) then
      countFromLines rest
    else
      match findNumber false line with
      | some n => some n
      | none => countFromLines rest

/-- Embedding of `_extract_count` (scorer.py lines 99-111). -/
def extract_count (result : String) : Option Nat :=
  countFromLines (splitNl (pyStripL result.data))

/-- Embedding of `score_fix` (scorer.py lines 37-78).  `execute_sql` is an
excluded black-box collaborator and is passed as the oracle `exec_sql`
(sql → engine → result string). -/
def score_fix (exec_sql : String → String → String)
    (fixed_sql verification_query engine : String)
    (expected_min_rows : Option Nat) : Bool :=
  let result := exec_sql fixed_sql engine
  if pyStartsWith result "SQL Error" || pyStartsWith result "Error" then false
  else if verification_query = "" then true
  else
    let verify_result := exec_sql verification_query engine
    if pyStartsWith verify_result "SQL Error" || pyStartsWith verify_result "Error" then false
    else
      match extract_count verify_result with
      | some count =>
        if count = 0 then false
        else
          match expected_min_rows with
          | some m => if count < m then false else true
          | none => true
      | none => true

/-! ## Balanced JSON extraction: `_extract_balanced_json` (llm.py lines 359-393) -/

/-- Scanner state of `_extract_balanced_json`: nesting depth, whether the
scan is inside a double-quoted string, and whether the previous character
was an unconsumed backslash escape. -/
structure ScanSt where
  depth : Int
  inStr : Bool
  esc : Bool
deriving DecidableEq, Repr

/-- One character of the `_extract_balanced_json` scan, as a pure state
transition (the early `return` is handled separately in `extractLoop`). -/
def scanStep (st : ScanSt) (c : Char) : ScanSt :=
  if st.esc then { st with esc := false }
  else if c = '\\' then { st with esc := true }
  else if c = '"' ∧ st.esc = false then { st with inStr := !st.inStr }
  else if st.inStr then st
  else if c = '\x7b' then { st with depth := st.depth + 1 }
  else if c = '\x7d' then { st with depth := st.depth - 1 }
  else st

/-- The loop of `_extract_balanced_json` (llm.py lines 364-391), returning
the number of characters consumed up to and including the closing brace. -/
def extractLoop : List Char → ScanSt → Nat → Option Nat
  | [], _, _ => none
  | c :: rest, st, n =>
    if st.esc then extractLoop rest { st with esc := false } (n + 1)
    else if c = '\\' then extractLoop rest { st with esc := true } (n + 1)
    else if c = '"' ∧ st.esc = false then
      extractLoop rest { st with inStr := !st.inStr } (n + 1)
    else if st.inStr then extractLoop rest st (n + 1)
    else if c = '\x7b' then extractLoop rest { st with depth := st.depth + 1 } (n + 1)
    else if c = '\x7d' then
      if st.depth - 1 = 0 then some (n + 1)
      else extractLoop rest { st with depth := st.depth - 1 } (n + 1)
    else extractLoop rest st (n + 1)

/-- The condition under which the scan of `_extract_balanced_json` returns:
a closing brace seen outside a string, not escaped, at depth 1. -/
def CloseCond (st : ScanSt) (c : Char) : Prop :=
  st.esc = false ∧ st.inStr = false ∧ c = '\x7d' ∧ st.depth = 1

instance (st : ScanSt) (c : Char) : Decidable (CloseCond st c) := by
  unfold CloseCond; infer_instance

/-- Embedding of `_extract_balanced_json` (llm.py lines 359-393). -/
def extract_balanced_json (text : String) (start : Nat) : Option String :=
  let cs := text.data
  if cs.length ≤ start then none
  else if cs.getD start ' ' ≠ '\x7b' then none
  else (extractLoop (cs.drop start) ⟨0, false, false⟩ 0).map
    (fun n => String.mk ((cs.drop start).take n))

/-! ## Claim C1: `score_root_cause` specification -/

/-- C1: `score_root_cause(predicted, expected)` returns true iff both strings
are non-empty, the expected string yields a non-empty term set, and the
overlap ratio `|T(predicted) ∩ T(expected)| / |T(expected)|` is at least 0.5;
additionally, a pair at ratio exactly 0.5 matches and a pair below the
threshold does not. -/
theorem C1_score_root_cause_spec :
    (∀ predicted expected : String,
      score_root_cause predicted expected = true ↔
        predicted ≠ "" ∧ expected ≠ "" ∧ extract_terms expected ≠ ∅ ∧
          (1 / 2 : ℚ) ≤
            ((extract_terms predicted ∩ extract_terms expected).card : ℚ) /
              ((extract_terms expected).card : ℚ)) ∧
    score_root_cause "alpha beta" "alpha beta gamma delta" = true ∧
    score_root_cause "alpha" "alpha beta gamma delta" = false := by
  have main : ∀ predicted expected : String,
      score_root_cause predicted expected = true ↔
        predicted ≠ "" ∧ expected ≠ "" ∧ extract_terms expected ≠ ∅ ∧
          (1 / 2 : ℚ) ≤
            ((extract_terms predicted ∩ extract_terms expected).card : ℚ) /
              ((extract_terms expected).card : ℚ) := by
    intro p e
    unfold score_root_cause
    by_cases h1 : p = "" ∨ e = ""
    · simp only [if_pos h1, Bool.false_eq_true, false_iff]
      rintro ⟨hp, he, -⟩
      rcases h1 with h | h
      · exact hp h
      · exact he h
    · simp only [if_neg h1]
      push_neg at h1
      by_cases h2 : extract_terms e = ∅
      · simp only [if_pos h2, Bool.false_eq_true, false_iff]
        rintro ⟨-, -, hne, -⟩
        exact hne h2
      · simp only [if_neg h2, decide_eq_true_eq]
        exact ⟨fun hr => ⟨h1.1, h1.2, h2, hr⟩, fun h => h.2.2.2⟩
  have hcard1 : (extract_terms "alpha beta" ∩ extract_terms "alpha beta gamma delta").card = 2 :=
    by decide
  have hcard2 : (extract_terms "alpha beta gamma delta").card = 4 := by decide
  have hcard3 : (extract_terms "alpha" ∩ extract_terms "alpha beta gamma delta").card = 1 :=
    by decide
  refine ⟨main, ?_, ?_⟩
  · refine (main _ _).mpr ⟨by decide, by decide, by decide, ?_⟩
    rw [hcard1, hcard2]
    norm_num
  · have h := main "alpha" "alpha beta gamma delta"
    cases hb : score_root_cause "alpha" "alpha beta gamma delta" with
    | false => rfl
    | true =>
      obtain ⟨-, -, -, hr⟩ := h.mp hb
      rw [hcard3, hcard2] at hr
      norm_num at hr

/-! ## Claim C2: balanced JSON extraction -/

/-- Unfolding of one step of the `_extract_balanced_json` loop as the pure
state transition plus the close condition. -/
theorem extractLoop_cons (c : Char) (rest : List Char) (st : ScanSt) (n : Nat) :
    extractLoop (c :: rest) st n =
      if CloseCond st c then some (n + 1)
      else extractLoop rest (scanStep st c) (n + 1) := by
  obtain ⟨d, istr, esc⟩ := st
  by_cases hc : CloseCond ⟨d, istr, esc⟩ c
  · obtain ⟨h1, h2, h3, h4⟩ := hc
    simp only at h1 h2 h3 h4
    subst h1; subst h2; subst h3; subst h4
    simp only [if_pos (show CloseCond ⟨1, false, false⟩ '\x7d' from ⟨rfl, rfl, rfl, rfl⟩)]
    simp [extractLoop]
  · rw [if_neg hc]
    simp only [extractLoop, scanStep]
    by_cases hesc : esc
    · simp [hesc]
    · simp only [Bool.not_eq_true] at hesc
      subst hesc
      by_cases hbs : c = '\\'
      · simp [hbs]
      · by_cases hq : c = '"'
        · simp [hbs, hq]
        · by_cases histr : istr
          · simp [hbs, hq, histr]
          · simp only [Bool.not_eq_true] at histr
            subst histr
            by_cases hob : c = '\x7b'
            · simp [hbs, hq, hob]
            · by_cases hcb : c = '\x7d'
              · have hd : ¬ d - 1 = 0 := by
                  intro hd0
                  exact hc ⟨rfl, rfl, hcb, show d = 1 by omega⟩
                simp [hbs, hq, hcb, hd]
              · simp [hbs, hq, hob, hcb]

/-- The loop of `_extract_balanced_json` succeeds exactly at the first index
whose running scan state satisfies the close condition. -/
theorem extractLoop_some_iff (cs : List Char) (st : ScanSt) (n m : Nat) :
    extractLoop cs st n = some m ↔
      ∃ i, i < cs.length ∧
        CloseCond (List.foldl scanStep st (cs.take i)) (cs.getD i ' ') ∧
        (∀ j, j < i → ¬ CloseCond (List.foldl scanStep st (cs.take j)) (cs.getD j ' ')) ∧
        m = n + i + 1 := by
  induction cs generalizing st n with
  | nil => simp [extractLoop]
  | cons c rest ih =>
    rw [extractLoop_cons]
    by_cases hc : CloseCond st c
    · simp only [if_pos hc]
      constructor
      · intro h
        injection h with h
        refine ⟨0, by simp, by simpa using hc, by omega, by omega⟩
      · rintro ⟨i, hi, hclose, hmin, hm⟩
        cases i with
        | zero => simp [hm]
        | succ i' =>
          exact absurd (by simpa using hc) (hmin 0 (Nat.succ_pos _))
    · simp only [if_neg hc]
      rw [ih]
      constructor
      · rintro ⟨i, hi, hclose, hmin, hm⟩
        refine ⟨i + 1, by simpa using Nat.succ_lt_succ hi, ?_, ?_, by omega⟩
        · simpa [List.take_succ_cons, List.foldl_cons] using hclose
        · intro j hj
          cases j with
          | zero => simpa using hc
          | succ j' =>
            have := hmin j' (Nat.lt_of_succ_lt_succ hj)
            simpa [List.take_succ_cons, List.foldl_cons] using this
      · rintro ⟨i, hi, hclose, hmin, hm⟩
        cases i with
        | zero => exact absurd (by simpa using hclose) hc
        | succ i' =>
          refine ⟨i', Nat.lt_of_succ_lt_succ (by simpa using hi), ?_, ?_, by omega⟩
          · simpa [List.take_succ_cons, List.foldl_cons] using hclose
          · intro j hj
            have := hmin (j + 1) (Nat.succ_lt_succ hj)
            simpa [List.take_succ_cons, List.foldl_cons] using this

/-- The claim's concrete example: a JSON object containing a literal brace
inside a quoted string. -/
def jsonExample : String :=
  "\x7b\"tool\":\"x\",\"args\":\x7b\"q\":\"SELECT \x27\x7b\x27 \"\x7d\x7d"

/-- C2: `_extract_balanced_json(text, start)` returns the substring from
`start` up to the brace that closes the object opened at `start` — the first
position at which the running scan (which treats braces inside double-quoted
strings, including after escaped quotes, as content) sees an unescaped `}`
outside a string at depth 1 — and returns `none` when `text[start]` is not
`{` or no balanced close exists; on the claim's example the full outer
object, including the literal `{` inside the string, is returned. -/
theorem C2_extract_balanced_json_spec :
    (∀ (text : String) (start : Nat) (s : String),
      extract_balanced_json text start = some s ↔
        start < text.data.length ∧ text.data.getD start ' ' = '\x7b' ∧
        ∃ i, i < (text.data.drop start).length ∧
          CloseCond (List.foldl scanStep ⟨0, false, false⟩ ((text.data.drop start).take i))
            ((text.data.drop start).getD i ' ') ∧
          (∀ j, j < i →
            ¬ CloseCond (List.foldl scanStep ⟨0, false, false⟩ ((text.data.drop start).take j))
              ((text.data.drop start).getD j ' ')) ∧
          s = String.mk ((text.data.drop start).take (i + 1))) ∧
    (∀ (text : String) (start : Nat),
      text.data.length ≤ start ∨ text.data.getD start ' ' ≠ '\x7b' →
        extract_balanced_json text start = none) ∧
    extract_balanced_json jsonExample 0 = some jsonExample := by
  refine ⟨?_, ?_, by decide⟩
  · intro text start s
    unfold extract_balanced_json
    by_cases h1 : text.data.length ≤ start
    · simp only [if_pos h1]
      constructor
      · rintro ⟨⟩
      · rintro ⟨hlt, -⟩
        omega
    · simp only [if_neg h1]
      by_cases h2 : text.data.getD start ' ' ≠ '\x7b'
      · simp only [if_pos h2]
        constructor
        · rintro ⟨⟩
        · rintro ⟨-, hbr, -⟩
          exact absurd hbr h2
      · simp only [if_neg h2]
        push_neg at h1 h2
        rw [Option.map_eq_some']
        constructor
        · rintro ⟨nn, hloop, hs⟩
          rw [extractLoop_some_iff] at hloop
          obtain ⟨i, hi, hclose, hmin, hm⟩ := hloop
          refine ⟨h1, h2, i, hi, hclose, hmin, ?_⟩
          rw [← hs, hm]
          norm_num
        · rintro ⟨-, -, i, hi, hclose, hmin, hs⟩
          refine ⟨i + 1, ?_, ?_⟩
          · rw [extractLoop_some_iff]
            exact ⟨i, hi, hclose, hmin, by omega⟩
          · rw [hs]
  · intro text start h
    unfold extract_balanced_json
    rcases h with h | h
    · simp only [if_pos h]
    · by_cases h1 : text.data.length ≤ start
      · simp only [if_pos h1]
      · simp only [if_neg h1, if_pos h]

/-- Closed witness for C2: a direct application of the characterization to
`"{}"` at index 0, and of the failure case to a non-brace start. -/
theorem C2_extract_balanced_json_spec_witness :
    extract_balanced_json "\x7b\x7d" 0 = some "\x7b\x7d" ∧
    extract_balanced_json "xy" 0 = none :=
  ⟨(C2_extract_balanced_json_spec.1 "\x7b\x7d" 0 "\x7b\x7d").mpr
      ⟨by decide, by decide, 1, by decide, by decide, by decide, by decide⟩,
    C2_extract_balanced_json_spec.2.1 "xy" 0 (Or.inr (by decide))⟩

/-! ## Claim C6: `score_fix` failure conditions -/

/-- C6: `score_fix` fails exactly when the fixed SQL's result starts with an
error marker (regardless of the verification query), or — with a
verification query supplied — when the verification result starts with an
error marker, or an extracted row count is zero or below the supplied
`expected_min_rows`; it succeeds in every other case. -/
theorem C6_score_fix_false_iff :
    ∀ (exec_sql : String → String → String)
      (fixed_sql verification_query engine : String) (expected_min_rows : Option Nat),
      score_fix exec_sql fixed_sql verification_query engine expected_min_rows = false ↔
        (pyStartsWith (exec_sql fixed_sql engine) "SQL Error" = true ∨
          pyStartsWith (exec_sql fixed_sql engine) "Error" = true) ∨
        (verification_query ≠ "" ∧
          ((pyStartsWith (exec_sql verification_query engine) "SQL Error" = true ∨
             pyStartsWith (exec_sql verification_query engine) "Error" = true) ∨
            ∃ c, extract_count (exec_sql verification_query engine) = some c ∧
              (c = 0 ∨ ∃ m, expected_min_rows = some m ∧ c < m))) := by
  intro exec_sql f vq eng minr
  unfold score_fix
  by_cases h1 : (pyStartsWith (exec_sql f eng) "SQL Error" || pyStartsWith (exec_sql f eng) "Error") = true
  · rw [if_pos h1]
    simp only [Bool.or_eq_true] at h1
    simp [h1]
  · rw [if_neg h1]
    simp only [Bool.or_eq_true] at h1
    push_neg at h1
    by_cases h2 : vq = ""
    · rw [if_pos h2]
      constructor
      · rintro ⟨⟩
      · rintro (h | ⟨hne, -⟩)
        · rcases h with h | h
          · exact absurd h (by simpa using h1.1)
          · exact absurd h (by simpa using h1.2)
        · exact absurd h2 hne
    · rw [if_neg h2]
      by_cases h3 : (pyStartsWith (exec_sql vq eng) "SQL Error" || pyStartsWith (exec_sql vq eng) "Error") = true
      · rw [if_pos h3]
        simp only [Bool.or_eq_true] at h3
        constructor
        · intro
          exact Or.inr ⟨h2, Or.inl h3⟩
        · intro
          rfl
      · rw [if_neg h3]
        simp only [Bool.or_eq_true] at h3
        push_neg at h3
        cases hc : extract_count (exec_sql vq eng) with
        | none =>
          dsimp only
          constructor
          · rintro ⟨⟩
          · rintro (h | ⟨-, h | ⟨c, hcc, -⟩⟩)
            · rcases h with h | h
              · exact absurd h (by simpa using h1.1)
              · exact absurd h (by simpa using h1.2)
            · rcases h with h | h
              · exact absurd h (by simpa using h3.1)
              · exact absurd h (by simpa using h3.2)
            · exact absurd hcc (by simp)
        | some c =>
          dsimp only
          by_cases hz : c = 0
          · subst hz
            simp only [if_pos rfl]
            constructor
            · intro
              exact Or.inr ⟨h2, Or.inr ⟨0, rfl, Or.inl rfl⟩⟩
            · intro
              rfl
          · rw [if_neg hz]
            cases minr with
            | none =>
              dsimp only
              constructor
              · rintro ⟨⟩
              · rintro (h | ⟨-, h | ⟨c', hcc, hbad⟩⟩)
                · rcases h with h | h
                  · exact absurd h (by simpa using h1.1)
                  · exact absurd h (by simpa using h1.2)
                · rcases h with h | h
                  · exact absurd h (by simpa using h3.1)
                  · exact absurd h (by simpa using h3.2)
                · injection hcc with hcc
                  subst hcc
                  rcases hbad with h | ⟨m, hm, -⟩
                  · exact absurd h hz
                  · exact absurd hm (by simp)
            | some m =>
              dsimp only
              by_cases hlt : c < m
              · rw [if_pos hlt]
                constructor
                · intro
                  exact Or.inr ⟨h2, Or.inr ⟨c, rfl, Or.inr ⟨m, rfl, hlt⟩⟩⟩
                · intro
                  rfl
              · rw [if_neg hlt]
                constructor
                · rintro ⟨⟩
                · rintro (h | ⟨-, h | ⟨c', hcc, hbad⟩⟩)
                  · rcases h with h | h
                    · exact absurd h (by simpa using h1.1)
                    · exact absurd h (by simpa using h1.2)
                  · rcases h with h | h
                    · exact absurd h (by simpa using h3.1)
                    · exact absurd h (by simpa using h3.2)
                  · injection hcc with hcc
                    subst hcc
                    rcases hbad with h | ⟨m', hm, hlt'⟩
                    · exact absurd h hz
                    · injection hm with hm
                      subst hm
                      exact absurd hlt' hlt

/-- Closed witness for C6: a fixed SQL whose execution reports an engine
error makes `score_fix` fail even though the verification query would
succeed. -/
theorem C6_score_fix_false_iff_witness :
    score_fix (fun q _ => if q = "BAD" then "SQL Error: no such table" else "1")
      "BAD" "SELECT COUNT(*) FROM t" "sqlite" none = false :=
  (C6_score_fix_false_iff (fun q _ => if q = "BAD" then "SQL Error: no such table" else "1")
      "BAD" "SELECT COUNT(*) FROM t" "sqlite" none).mpr
    (Or.inl (Or.inl (by decide)))

/-! ## Claim C10: `score_fix` with no extractable count -/

/-- A line with no digit characters yields no standalone number. -/
theorem findNumber_none_of_no_digit (line : List Char)
    (h : ∀ c ∈ line, c.isDigit = false) : ∀ b, findNumber b line = none := by
  induction line with
  | nil => intro b; rfl
  | cons c rest ih =>
    intro b
    have hcd : c.isDigit = false := h c (List.mem_cons_self c rest)
    unfold findNumber
    rw [if_neg]
    · exact ih (fun x hx => h x (List.mem_cons_of_mem c hx)) (isWordChar c)
    · rintro ⟨hd, -⟩
      rw [hcd] at hd
      cases hd

/-- If every line is a header/separator line or digit-free, the count loop
finds nothing. -/
theorem countFromLines_none (ls : List (List Char))
    (h : ∀ line ∈ ls,
      (containsSub "---".data line ∨ containsSub "cnt".data (lowerL line) ∨
        containsSub "count".data (lowerL line)) ∨ (∀ c ∈ line, c.isDigit = false)) :
    countFromLines ls = none := by
  induction ls with
  | nil => rfl
  | cons line rest ih =>
    have hrest := ih (fun l hl => h l (List.mem_cons_of_mem line hl))
    rcases h line (List.mem_cons_self line rest) with hhead | hfree
    · unfold countFromLines
      rw [if_pos hhead]
      exact hrest
    · unfold countFromLines
      rw [findNumber_none_of_no_digit line hfree false]
      by_cases hh : containsSub "---".data line ∨ containsSub "cnt".data (lowerL line) ∨
          containsSub "count".data (lowerL line)
      · rw [if_pos hh]
        exact hrest
      · rw [if_neg hh]
        exact hrest

/-- C10 (implicit): when the fixed SQL executes without an error marker and
every line of the verification result is a header/separator line (contains
`---`, `cnt` or `count`) or contains no digits, no count is extracted and
`score_fix` returns true even when `expected_min_rows` is supplied. -/
theorem C10_score_fix_no_count :
    ∀ (exec_sql : String → String → String)
      (fixed_sql verification_query engine : String) (expected_min_rows : Option Nat),
      pyStartsWith (exec_sql fixed_sql engine) "SQL Error" = false →
      pyStartsWith (exec_sql fixed_sql engine) "Error" = false →
      verification_query ≠ "" →
      pyStartsWith (exec_sql verification_query engine) "SQL Error" = false →
      pyStartsWith (exec_sql verification_query engine) "Error" = false →
      (∀ line ∈ splitNl (pyStripL (exec_sql verification_query engine).data),
        (containsSub "---".data line ∨ containsSub "cnt".data (lowerL line) ∨
          containsSub "count".data (lowerL line)) ∨ (∀ c ∈ line, c.isDigit = false)) →
      extract_count (exec_sql verification_query engine) = none ∧
      score_fix exec_sql fixed_sql verification_query engine expected_min_rows = true := by
  intro exec_sql f vq eng minr h1 h2 hvq h3 h4 hlines
  have hcount : extract_count (exec_sql vq eng) = none :=
    countFromLines_none _ hlines
  refine ⟨hcount, ?_⟩
  unfold score_fix
  rw [if_neg (by simp [h1, h2]), if_neg hvq, if_neg (by simp [h3, h4]), hcount]

/-- Closed witness for C10: a verification result consisting of prose with
no digits still counts as success, despite `expected_min_rows = some 5`. -/
theorem C10_score_fix_no_count_witness :
    extract_count ((fun q (_ : String) => if q = "VQ" then "no rows here" else "fine") "VQ" "duckdb") = none ∧
    score_fix (fun q _ => if q = "VQ" then "no rows here" else "fine")
      "F" "VQ" "duckdb" (some 5) = true :=
  C10_score_fix_no_count (fun q _ => if q = "VQ" then "no rows here" else "fine")
    "F" "VQ" "duckdb" (some 5)
    (by decide) (by decide) (by decide) (by decide) (by decide) (by decide)

/-! ## Diagnosis parser: `src/agent.py`

The parser is a cascade of Python regular expressions.  Each one is
embedded below as a direct recursive function; the doc comments record the
concrete pattern and the (hand-derived) backtracking behaviour.  All
functions are structurally recursive so the kernel can evaluate them. -/

/-- Model of `value.rstrip("*")`. -/
def rstripStars (cs : List Char) : List Char :=
  (cs.reverse.dropWhile (fun c => c = '*')).reverse

/-- Semantics of the tail `\s*(.+?)(?:\n|$)` applied to the text `r2` after
a field label's colon: the regex engine matches iff `r2` contains a
character other than `\n` (the greedy `\s*` backtracks as needed); the
reported group is the run of non-newline characters after the whitespace
prefix.  When `r2` consists only of whitespace the engine's group is
whitespace; since every caller strips the group immediately, that case is
returned as the empty group here. -/
def valueTail (r2 : List Char) : Option (List Char) :=
  if r2.any (fun c => c ≠ '\n') then
    some ((r2.dropWhile isPyWs).takeWhile (fun c => c ≠ '\n'))
  else none

/-- Embedding of `_extract_field` (agent.py lines 349-354), the pattern
`rf"{field_name}:\s*(.+?)(?:\n|$)"` with `re.IGNORECASE`: the value is
taken at the first case-insensitive occurrence of `FIELD:`; if the text
after that occurrence is only newlines, no later occurrence can exist
either, and both the engine and this model yield `""`. -/
def extract_field (content field : String) : String :=
  let cs := content.data
  match firstSubstrIdx (lowerL (field.data ++ [':'])) (lowerL cs) with
  | none => ""
  | some p =>
    match valueTail (cs.drop (p + field.length + 1)) with
    | some g => String.mk (pyStripL g)
    | none => ""

/-- Case-insensitive literal match at the head of `cs`; `lit` must be given
lowercased. -/
def matchCI (lit cs : List Char) : Bool := lowerL (cs.take lit.length) == lit

/-- Label matcher for `\*\*Root\s*Cause\*\*` (with `re.IGNORECASE`);
returns the number of characters consumed.  The internal `\s*` is
deterministic because `Cause` cannot begin with whitespace. -/
def labelStars (cs : List Char) : Option Nat :=
  if "**".data.isPrefixOf cs ∧ matchCI "root".data (cs.drop 2) then
    let r := cs.drop 6
    let w := r.takeWhile isPyWs
    if matchCI "cause".data (r.drop w.length) ∧
        "**".data.isPrefixOf ((r.drop w.length).drop 5) then
      some (6 + w.length + 5 + 2)
    else none
  else none

/-- Label matcher for `Root\s*Cause` (with `re.IGNORECASE`). -/
def labelRootCause (cs : List Char) : Option Nat :=
  if matchCI "root".data cs then
    let r := cs.drop 4
    let w := r.takeWhile isPyWs
    if matchCI "cause".data (r.drop w.length) then some (4 + w.length + 5) else none
  else none

/-- Label matcher for `The\s+root\s+cause\s+is` (with `re.IGNORECASE`). -/
def labelTheRootCauseIs (cs : List Char) : Option Nat :=
  if matchCI "the".data cs then
    let r1 := cs.drop 3
    let w1 := r1.takeWhile isPyWs
    if w1 ≠ [] ∧ matchCI "root".data (r1.drop w1.length) then
      let r2 := (r1.drop w1.length).drop 4
      let w2 := r2.takeWhile isPyWs
      if w2 ≠ [] ∧ matchCI "cause".data (r2.drop w2.length) then
        let r3 := (r2.drop w2.length).drop 5
        let w3 := r3.takeWhile isPyWs
        if w3 ≠ [] ∧ matchCI "is".data (r3.drop w3.length) then
          some (3 + w1.length + 4 + w2.length + 5 + w3.length + 2)
        else none
      else none
    else none
  else none

/-- Label matcher for `Issue` (with `re.IGNORECASE`). -/
def labelIssue (cs : List Char) : Option Nat :=
  if matchCI "issue".data cs then some 5 else none

/-- Label matcher for `Problem` (with `re.IGNORECASE`). -/
def labelProblem (cs : List Char) : Option Nat :=
  if matchCI "problem".data cs then some 7 else none

/-- Semantics of `\s*[:]\s*(.+?)(?:\n|$)` after a flexible label: optional
whitespace, a colon, then the field-value tail. -/
def colonValue (cs : List Char) : Option (List Char) :=
  let w := cs.takeWhile isPyWs
  match cs.drop w.length with
  | ':' :: r2 => valueTail r2
  | _ => none

/-- Leftmost-match search for one flexible pattern
`rf"{pat}\s*[:]\s*(.+?)(?:\n|$)"`: at each position, the label must match
followed by a colon and a value tail; on failure the engine moves to the
next position. -/
def flexScan (lab : List Char → Option Nat) : List Char → Option (List Char)
  | [] => none
  | c :: rest =>
    match lab (c :: rest) with
    | some n =>
      match colonValue ((c :: rest).drop n) with
      | some g => some g
      | none => flexScan lab rest
    | none => flexScan lab rest

/-- The value post-processing of `_extract_field_flexible`:
`group(1).strip().rstrip("*").strip()`. -/
def procFlexValue (g : List Char) : String :=
  String.mk (pyStripL (rstripStars (pyStripL g)))

/-- Embedding of `_extract_field_flexible` (agent.py lines 356-371) at the
five root-cause patterns used by `_parse_diagnosis`: try each pattern in
priority order, returning the first nonempty processed value. -/
def extract_field_flexible (content : String) : String :=
  let cs := content.data
  let v1 := match flexScan labelStars cs with
    | some g => procFlexValue g
    | none => ""
  if v1 ≠ "" then v1 else
  let v2 := match flexScan labelRootCause cs with
    | some g => procFlexValue g
    | none => ""
  if v2 ≠ "" then v2 else
  let v3 := match flexScan labelTheRootCauseIs cs with
    | some g => procFlexValue g
    | none => ""
  if v3 ≠ "" then v3 else
  let v4 := match flexScan labelIssue cs with
    | some g => procFlexValue g
    | none => ""
  if v4 ≠ "" then v4 else
  let v5 := match flexScan labelProblem cs with
    | some g => procFlexValue g
    | none => ""
  if v5 ≠ "" then v5 else ""

/-! ### `_strip_code_fences` (agent.py lines 455-463) -/

/-- First substitution `re.sub(r"^(?:```|~~~)\w*\s*\n?", "", sql)`: the
anchored pattern matches at most once, at position 0; the greedy `\w*\s*`
absorbs the tag and trailing whitespace (including any newline, so the
final `\n?` adds nothing). -/
def subOpenFence (cs : List Char) : List Char :=
  if "```".data.isPrefixOf cs ∨ "~~~".data.isPrefixOf cs then
    ((cs.drop 3).dropWhile isWordChar).dropWhile isPyWs
  else cs

/-- A fence (``` or ~~~) followed only by whitespace up to end of string:
the suffix form accepted by the second substitution after its optional
newline. -/
def fenceWs (cs : List Char) : Bool :=
  ("```".data.isPrefixOf cs || "~~~".data.isPrefixOf cs) && (cs.drop 3).all isPyWs

/-- Whether `\n?(?:```|~~~)\s*$` matches at this position, extending to the
end of the string (as derived from `$` plus greedy `\s*`, any match must
absorb the rest of the string). -/
def closeFenceMatchAt : List Char → Bool
  | [] => false
  | '\n' :: rest => fenceWs rest
  | cs => fenceWs cs

/-- Position of the single possible match of the second substitution
`re.sub(r"\n?(?:```|~~~)\s*$", "", sql)`. -/
def subCloseAux : List Char → Option Nat
  | [] => none
  | c :: rest =>
    if closeFenceMatchAt (c :: rest) then some 0
    else (subCloseAux rest).map (· + 1)

/-- Second substitution of `_strip_code_fences`. -/
def subCloseFence (cs : List Char) : List Char :=
  match subCloseAux cs with
  | some i => cs.take i
  | none => cs

/-- Embedding of `_strip_code_fences` (agent.py lines 455-463): strip an
opening fence, strip a closing fence, drop remaining standalone fence
lines, and strip the result. -/
def strip_code_fences (sql : String) : String :=
  let s1 := subOpenFence sql.data
  let s2 := subCloseFence s1
  let lines := (splitNl s2).filter
    (fun l => pyStripL l ≠ "```".data ∧ pyStripL l ≠ "~~~".data)
  String.mk (pyStripL (joinNl lines))

/-! ### `_extract_sql_block` (agent.py lines 373-396) -/

/-- A label-like token: `[A-Z_]+:` under `re.IGNORECASE`, i.e. one or more
letters (either case) or underscores followed by a colon. -/
def labelTokenAt (cs : List Char) : Bool :=
  match cs.dropWhile (fun c => c.isAlpha || c = '_') with
  | ':' :: _ => cs.takeWhile (fun c => c.isAlpha || c = '_') ≠ []
  | _ => false

/-- Lazy-scan step count: number of characters consumed by a lazy `.*?`
before `stop` first holds (`stop` always holds at `[]`). -/
def lazyLen (stop : List Char → Bool) : List Char → Nat
  | [] => 0
  | c :: rest => if stop (c :: rest) then 0 else 1 + lazyLen stop rest

/-- Stop condition of the lookahead `(?=\n[A-Z_]+:|$)` under
`re.DOTALL | re.IGNORECASE`: end of string, the position before a final
newline (`$`), or a newline followed by a label token. -/
def stopCondA : List Char → Bool
  | [] => true
  | c :: rest =>
    if c = '\n' then (if rest = [] then true else labelTokenAt rest)
    else false

/-- Semantics of `\s*\n` with a greedy backtracking `\s*`: succeeds iff the
maximal whitespace run contains a newline, consuming up to and including
its last newline; returns the number of characters consumed. -/
def wsNlLen (rest : List Char) : Option Nat :=
  let w := rest.takeWhile isPyWs
  if w.contains '\n' then
    some (w.length - (w.reverse.takeWhile (fun c => c ≠ '\n')).length)
  else none

/-- First pattern of `_extract_sql_block`:
`rf"{field_name}:\s*\n(.*?)(?=\n[A-Z_]+:|$)"` with
`re.DOTALL | re.IGNORECASE`.  Scans for the first occurrence of the label
whose trailing whitespace contains a newline, then lazily captures until
the stop condition.  `fieldC` is the lowercased label including its colon. -/
def patAScan (fieldC : List Char) : List Char → Option (List Char)
  | [] => none
  | c :: rest =>
    if matchCI fieldC (c :: rest) then
      match wsNlLen ((c :: rest).drop fieldC.length) with
      | some k =>
        let body := ((c :: rest).drop fieldC.length).drop k
        some (body.take (lazyLen stopCondA body))
      | none => patAScan fieldC rest
    else patAScan fieldC rest

/-- Candidate consumed lengths for `(?:sql|SQL)?` in greedy order:
case-insensitive when the pattern carries `re.IGNORECASE`, otherwise the
two exact alternatives. -/
def tagLens (ci : Bool) (r : List Char) : List Nat :=
  if ci then (if matchCI "sql".data r then [3, 0] else [0])
  else
    if r.take 3 = "sql".data then [3, 0]
    else if r.take 3 = "SQL".data then [3, 0]
    else [0]

/-- Number of characters consumed by an opening fence
`{fence}(?:sql|SQL)?\s*\n` at the head of `cs`, with the optional tag tried
greedily and `\s*\n` as in `wsNlLen`. -/
def fenceOpenEnd (fence : List Char) (ci : Bool) (cs : List Char) : Option Nat :=
  if fence.isPrefixOf cs then
    let r := cs.drop fence.length
    (tagLens ci r).findSome? (fun t => (wsNlLen (r.drop t)).map (fun k => fence.length + t + k))
  else none

/-- Offset (from the head of `cs`) of the capture start after the first
matching opening fence.  A lazy `.*?` before the fence makes the engine
try each position in order. -/
def openScan (fence : List Char) (ci : Bool) : List Char → Option Nat
  | [] => none
  | c :: rest =>
    match fenceOpenEnd fence ci (c :: rest) with
    | some n => some n
    | none => (openScan fence ci rest).map (· + 1)

/-- Second/third pattern of `_extract_sql_block`:
`rf"{field_name}:.*?{fence}(?:sql|SQL)?\s*\n(.*?){fence}"` with
`re.DOTALL | re.IGNORECASE`.  Only the first label occurrence matters: if
no fenced block with a closer follows it, none follows a later occurrence
either. -/
def fencedAfterField (fieldC fence : List Char) (cs : List Char) : Option (List Char) :=
  match firstSubstrIdx fieldC (lowerL cs) with
  | none => none
  | some p =>
    let r := cs.drop (p + fieldC.length)
    match openScan fence true r with
    | none => none
    | some j =>
      let body := r.drop j
      (firstSubstrIdx fence body).map (fun k => body.take k)

/-- Embedding of `_extract_sql_block` (agent.py lines 373-396). -/
def extract_sql_block (content field : String) : String :=
  let cs := content.data
  let fieldC := lowerL (field.data ++ [':'])
  match patAScan fieldC cs with
  | some g => strip_code_fences (String.mk (pyStripL g))
  | none =>
    match fencedAfterField fieldC "```".data cs with
    | some g => String.mk (pyStripL g)
    | none =>
      match fencedAfterField fieldC "~~~".data cs with
      | some g => String.mk (pyStripL g)
      | none => ""

/-! ### `_extract_sql_fallback` and `_extract_verification_fallback`
(agent.py lines 398-452) -/

/-- `re.findall(rf"{fence}(?:sql|SQL)?\s*\n(.*?){fence}", content, re.DOTALL)`
(no `re.IGNORECASE`): repeatedly take the first opening fence, capture
lazily to the next closing fence, and continue after it.  `fuel` bounds the
number of matches; every match consumes at least one character, so
`cs.length` is always sufficient. -/
def findallFencedAux (fence : List Char) : Nat → List Char → List (List Char)
  | 0, _ => []
  | fuel + 1, cs =>
    match openScan fence false cs with
    | none => []
    | some j =>
      let body := cs.drop j
      match firstSubstrIdx fence body with
      | none => []
      | some k => body.take k :: findallFencedAux fence fuel (body.drop (k + fence.length))

/-- All fenced blocks of `content` for one fence kind. -/
def findallFenced (fence : List Char) (cs : List Char) : List (List Char) :=
  findallFencedAux fence cs.length cs

/-- Whether `\bINSERT\s+INTO\b` (with `re.IGNORECASE`) matches at the head
of `cs`, given that the word boundary before it has been checked by the
caller. -/
def insertIntoHere (cs : List Char) : Bool :=
  matchCI "insert".data cs &&
    (let r := cs.drop 6
     let w := r.takeWhile isPyWs
     (w ≠ [] : Bool) && matchCI "into".data (r.drop w.length) &&
       (match (r.drop w.length).drop 4 with
        | [] => true
        | a :: _ => !isWordChar a))

/-- `re.search(r"\bINSERT\s+INTO\b", block, re.IGNORECASE)` as a scan;
`prevWord` tracks whether the previous character was a word character (the
`\b` before `INSERT`). -/
def hasInsertInto : Bool → List Char → Bool
  | _, [] => false
  | prevWord, c :: rest =>
    (!prevWord && insertIntoHere (c :: rest)) || hasInsertInto (isWordChar c) rest

/-- The block loop of `_extract_sql_fallback`: the first stripped fenced
block containing `INSERT INTO`. -/
def firstInsertBlock : List (List Char) → Option (List Char)
  | [] => none
  | b :: rest =>
    let b' := pyStripL b
    if hasInsertInto false b' then some b' else firstInsertBlock rest

/-- Stop condition of `(?=\n\n|\nROOT_CAUSE|\nFIX_|\nVERIFICATION|\Z)`
under `re.DOTALL | re.IGNORECASE` (`\Z` is absolute end of string). -/
def unfencedStop : List Char → Bool
  | [] => true
  | '\n' :: rest =>
    (match rest with
     | '\n' :: _ => true
     | _ => false) ||
      matchCI "root_cause".data rest || matchCI "fix_".data rest ||
      matchCI "verification".data rest
  | _ => false

/-- The unfenced pattern of `_extract_sql_fallback`:
`(INSERT\s+INTO\s+\w+\s*\([^)]+\)\s*\n\s*SELECT\s+.+?)` followed by the
stop lookahead, with `re.DOTALL | re.IGNORECASE`; all quantifiers before
the lazy tail are deterministic (each following literal cannot begin with
a character of the preceding class).  Returns the group length at this
position. -/
def unfencedInsertAt (cs : List Char) : Option Nat :=
  if matchCI "insert".data cs then
    let a1 := cs.drop 6
    let w1 := a1.takeWhile isPyWs
    if w1 = [] then none
    else if matchCI "into".data (a1.drop w1.length) then
      let a2 := (a1.drop w1.length).drop 4
      let w2 := a2.takeWhile isPyWs
      if w2 = [] then none
      else
        let a3 := a2.drop w2.length
        let r1 := a3.takeWhile isWordChar
        if r1 = [] then none
        else
          let a4 := a3.drop r1.length
          let w3 := a4.takeWhile isPyWs
          match a4.drop w3.length with
          | '(' :: a5 =>
            let q := a5.takeWhile (fun c => c ≠ ')')
            if q = [] then none
            else
              match a5.drop q.length with
              | ')' :: a6 =>
                match wsNlLen a6 with
                | none => none
                | some k =>
                  let a7 := a6.drop k
                  let w4 := a7.takeWhile isPyWs
                  if matchCI "select".data (a7.drop w4.length) then
                    let a8 := (a7.drop w4.length).drop 6
                    let w5 := a8.takeWhile isPyWs
                    if w5 = [] then none
                    else
                      match a8.drop w5.length with
                      | [] => none
                      | _ :: a9 =>
                        some (6 + w1.length + 4 + w2.length + r1.length + w3.length + 1 +
                          q.length + 1 + k + w4.length + 6 + w5.length + 1 +
                          lazyLen unfencedStop a9)
                  else none
              | _ => none
          | _ => none
    else none
  else none

/-- Leftmost match of the unfenced `INSERT INTO … SELECT` pattern. -/
def unfencedScan : List Char → Option (List Char)
  | [] => none
  | c :: rest =>
    match unfencedInsertAt (c :: rest) with
    | some n => some ((c :: rest).take n)
    | none => unfencedScan rest

/-- Embedding of `_extract_sql_fallback` (agent.py lines 398-423). -/
def extract_sql_fallback (content : String) : String :=
  let cs := content.data
  match firstInsertBlock (findallFenced "```".data cs) with
  | some b => String.mk b
  | none =>
    match firstInsertBlock (findallFenced "~~~".data cs) with
    | some b => String.mk b
    | none =>
      match unfencedScan cs with
      | some g => strip_code_fences (String.mk (pyStripL g))
      | none => ""

/-- `\s+FROM\s+\w+` after the closing parenthesis of `COUNT(...)`
(with `re.IGNORECASE`); returns the number of characters consumed. -/
def postParen (inner : List Char) : Option Nat :=
  let w := inner.takeWhile isPyWs
  if w = [] then none
  else if matchCI "from".data (inner.drop w.length) then
    let r := (inner.drop w.length).drop 4
    let w2 := r.takeWhile isPyWs
    if w2 = [] then none
    else
      let t := (r.drop w2.length).takeWhile isWordChar
      if t = [] then none else some (w.length + 4 + w2.length + t.length)
  else none

/-- The lazy `.*?\)` of `COUNT\s*\(.*?\)` with the following `\s+FROM\s+\w+`:
the engine extends the lazy group to successive `)` candidates until the
tail matches.  Returns (characters consumed through the `)`,
characters consumed by the tail). -/
def parenScan : List Char → Option (Nat × Nat)
  | [] => none
  | ')' :: rest =>
    (match postParen rest with
     | some m => some (1, m)
     | none => (parenScan rest).map (fun p => (p.1 + 1, p.2)))
  | _ :: rest => (parenScan rest).map (fun p => (p.1 + 1, p.2))

/-- Stop condition of the consumed `(?:\n\n|\Z)` terminator. -/
def stopNlNl : List Char → Bool
  | '\n' :: '\n' :: _ => true
  | [] => true
  | _ => false

/-- The verification-query pattern
`(SELECT\s+COUNT\s*\(.*?\)\s+FROM\s+\w+.*?)(?:\n\n|\Z)` with
`re.DOTALL | re.IGNORECASE`, matched at the head of `cs`; returns the
group length. -/
def selectCountAt (cs : List Char) : Option Nat :=
  if matchCI "select".data cs then
    let a1 := cs.drop 6
    let w1 := a1.takeWhile isPyWs
    if w1 = [] then none
    else if matchCI "count".data (a1.drop w1.length) then
      let a2 := (a1.drop w1.length).drop 5
      let w2 := a2.takeWhile isPyWs
      match a2.drop w2.length with
      | '(' :: a3 =>
        match parenScan a3 with
        | none => none
        | some (pk, m) =>
          let a4 := a3.drop (pk + m)
          some (6 + w1.length + 5 + w2.length + 1 + pk + m + lazyLen stopNlNl a4)
      | _ => none
    else none
  else none

/-- Leftmost match of the verification-query pattern. -/
def selectCountScan : List Char → Option (List Char)
  | [] => none
  | c :: rest =>
    match selectCountAt (c :: rest) with
    | some n => some ((c :: rest).take n)
    | none => selectCountScan rest

/-- Embedding of `_extract_verification_fallback` (agent.py lines 425-452):
locate the fixed SQL (or its first line) in the content, then search the
text after the first line for a `SELECT COUNT(...) FROM …` query. -/
def extract_verification_fallback (content fixed_sql : String) : String :=
  let cs := content.data
  let firstLine := (splitNl fixed_sql.data).headD []
  let pos :=
    match firstSubstrIdx fixed_sql.data cs with
    | some p => some p
    | none => firstSubstrIdx firstLine cs
  match pos with
  | none => ""
  | some p =>
    let after := cs.drop (p + firstLine.length)
    match selectCountScan after with
    | some g => strip_code_fences (String.mk (pyStripL g))
    | none => ""

/-! ### `_parse_diagnosis` (agent.py lines 301-347) -/

inductive DiagnosisStatus where
  | success
  | maxStepsReached
  | error
deriving DecidableEq, Repr

/-- Model of `DiagnosisReport` (models.py), with the same field defaults. -/
structure DiagnosisReport where
  status : DiagnosisStatus
  root_cause : String := ""
  fix_type : String := ""
  fix_description : String := ""
  fixed_sql : String := ""
  verification_query : String := ""
  steps_taken : Nat := 0
  raw_response : String := ""
deriving DecidableEq, Repr

/-- Model of Python slicing `s[:n]` (by code point). -/
def pyTake (s : String) (n : Nat) : String := String.mk (s.data.take n)

/-- Embedding of `_parse_diagnosis` (agent.py lines 301-347). -/
def parse_diagnosis (content : String) : DiagnosisReport :=
  let root_cause0 := extract_field content "ROOT_CAUSE"
  let fix_type0 := extract_field content "FIX_TYPE"
  let fix_type := if fix_type0 = "" then "sql_modification" else fix_type0
  let fix_description := extract_field content "FIX_DESCRIPTION"
  let fixed_sql0 := extract_sql_block content "FIXED_SQL"
  let verification_query0 := extract_sql_block content "VERIFICATION_QUERY"
  let root_cause := if root_cause0 = "" then extract_field_flexible content else root_cause0
  let fixed_sql := if fixed_sql0 = "" then extract_sql_fallback content else fixed_sql0
  let verification_query :=
    if verification_query0 = "" ∧ fixed_sql ≠ "" then
      extract_verification_fallback content fixed_sql
    else verification_query0
  if root_cause = "" ∧ fixed_sql = "" then
    { status := DiagnosisStatus.success
      raw_response := content
      root_cause := pyTake content 200 }
  else
    { status := DiagnosisStatus.success
      root_cause := root_cause
      fix_type := fix_type
      fix_description := fix_description
      fixed_sql := fixed_sql
      verification_query := verification_query
      raw_response := content }

/-! ## Claim C7: graceful degradation of the diagnosis parser -/

/-- C7: when neither a root cause (labelled field or any alternative label)
nor a fixed SQL (labelled block or any fallback) is extracted, the report
is a success whose root cause is the first 200 characters of the raw
content — non-empty for non-empty prose, of length at most 200 — with
empty SQL fields; an unparsed answer is never an error. -/
theorem C7_parse_diagnosis_degrade :
    ∀ content : String,
      extract_field content "ROOT_CAUSE" = "" →
      extract_field_flexible content = "" →
      extract_sql_block content "FIXED_SQL" = "" →
      extract_sql_fallback content = "" →
      parse_diagnosis content =
        { status := DiagnosisStatus.success
          raw_response := content
          root_cause := pyTake content 200 } ∧
      (content ≠ "" → (parse_diagnosis content).root_cause ≠ "") ∧
      (parse_diagnosis content).root_cause.length ≤ 200 := by
  intro content h1 h2 h3 h4
  have hrep : parse_diagnosis content =
      { status := DiagnosisStatus.success
        raw_response := content
        root_cause := pyTake content 200 } := by
    unfold parse_diagnosis
    rw [h1, h2, h3, h4]
    simp
  have hproj : (parse_diagnosis content).root_cause = pyTake content 200 := by rw [hrep]
  refine ⟨hrep, ?_, ?_⟩
  · intro hne
    rw [hproj]
    intro hcontra
    apply hne
    have hdata : content.data.take 200 = [] := congrArg String.data hcontra
    rcases List.take_eq_nil_iff.mp hdata with h | h
    · cases h
    · cases content with
      | mk l =>
        simp only [String.data] at h
        rw [h]
  · rw [hproj]
    show (content.data.take 200).length ≤ 200
    rw [List.length_take]
    exact Nat.min_le_left _ _

/-- Closed witness for C7: pure prose with no labels, fences or SQL
degrades to a success report carrying the prose itself. -/
theorem C7_parse_diagnosis_degrade_witness :
    parse_diagnosis "Everything looks broken in mysterious ways" =
      { status := DiagnosisStatus.success
        raw_response := "Everything looks broken in mysterious ways"
        root_cause := pyTake "Everything looks broken in mysterious ways" 200 } ∧
    (parse_diagnosis "Everything looks broken in mysterious ways").root_cause ≠ "" ∧
    (parse_diagnosis "Everything looks broken in mysterious ways").root_cause.length ≤ 200 :=
  ⟨(C7_parse_diagnosis_degrade "Everything looks broken in mysterious ways"
      (by decide) (by decide) (by decide) (by decide)).1,
    (C7_parse_diagnosis_degrade "Everything looks broken in mysterious ways"
      (by decide) (by decide) (by decide) (by decide)).2.1 (by decide),
    (C7_parse_diagnosis_degrade "Everything looks broken in mysterious ways"
      (by decide) (by decide) (by decide) (by decide)).2.2⟩

/-! ## Claim C9: idempotence of code-fence stripping -/

theorem splitNl_cons (c : Char) (rest : List Char) :
    splitNl (c :: rest) =
      if c = '\n' then [] :: splitNl rest
      else
        match splitNl rest with
        | l :: ls => (c :: l) :: ls
        | [] => [[c]] := rfl

theorem splitNl_ne_nil (cs : List Char) : ∃ l ls, splitNl cs = l :: ls := by
  cases cs with
  | nil => exact ⟨[], [], rfl⟩
  | cons c rest =>
    rw [splitNl_cons]
    by_cases hc : c = '\n'
    · rw [if_pos hc]
      exact ⟨[], splitNl rest, rfl⟩
    · rw [if_neg hc]
      rcases hs : splitNl rest with _ | ⟨l, ls⟩
      · exact ⟨[c], [], rfl⟩
      · exact ⟨c :: l, ls, rfl⟩

/-- Splitting on newlines and joining with newlines is the identity. -/
theorem joinNl_splitNl (cs : List Char) : joinNl (splitNl cs) = cs := by
  induction cs with
  | nil => rfl
  | cons c rest ih =>
    obtain ⟨l, ls, hsplit⟩ := splitNl_ne_nil rest
    rw [splitNl_cons]
    by_cases hc : c = '\n'
    · rw [if_pos hc, hsplit]
      have hj : joinNl ([] :: l :: ls) = '\n' :: joinNl (l :: ls) := rfl
      rw [hj, ← hsplit, ih, hc]
    · rw [if_neg hc, hsplit]
      cases ls with
      | nil =>
        have hrest : rest = l := by
          rw [← ih, hsplit]
          rfl
        rw [hrest]
        rfl
      | cons l2 ls' =>
        have hj1 : joinNl ((c :: l) :: l2 :: ls') = (c :: l) ++ '\n' :: joinNl (l2 :: ls') := rfl
        have hj2 : joinNl (l :: l2 :: ls') = l ++ '\n' :: joinNl (l2 :: ls') := rfl
        have hrest : rest = l ++ '\n' :: joinNl (l2 :: ls') := by rw [← ih, hsplit, hj2]
        rw [hj1, hrest]
        rfl

theorem strMkData (s : String) : String.mk s.data = s := by
  cases s
  rfl

/-- A character list already in fence-stripped normal form: it does not
begin with a fence, contains no closing-fence match, has no standalone
fence lines, and is whitespace-stripped. -/
def fenceClean (t : List Char) : Bool :=
  !("```".data.isPrefixOf t || "~~~".data.isPrefixOf t) &&
  (subCloseAux t).isNone &&
  (splitNl t).all (fun l => decide (pyStripL l ≠ "```".data ∧ pyStripL l ≠ "~~~".data)) &&
  (pyStripL t == t)

/-- `_strip_code_fences` fixes every fence-clean string. -/
theorem strip_code_fences_fixed (t : List Char) (h : fenceClean t = true) :
    strip_code_fences (String.mk t) = String.mk t := by
  unfold fenceClean at h
  simp only [Bool.and_eq_true, Bool.not_eq_true', Bool.or_eq_false_iff,
    Option.isNone_iff_eq_none, List.all_eq_true, beq_iff_eq] at h
  obtain ⟨⟨⟨⟨hpre1, hpre2⟩, hclose⟩, hall⟩, hstrip⟩ := h
  unfold strip_code_fences
  have h1 : subOpenFence t = t := by
    unfold subOpenFence
    rw [if_neg]
    rintro (hp | hp)
    · rw [hpre1] at hp
      cases hp
    · rw [hpre2] at hp
      cases hp
  have h2 : subCloseFence t = t := by
    unfold subCloseFence
    rw [hclose]
  have h3 : (splitNl t).filter
      (fun l => decide (pyStripL l ≠ "```".data ∧ pyStripL l ≠ "~~~".data)) = splitNl t :=
    List.filter_eq_self.mpr hall
  simp only [String.data] at h1 h2 ⊢
  rw [h1, h2, h3, joinNl_splitNl, hstrip]

/-- C9 (amended): code-fence stripping is idempotent on every input whose
once-stripped result is fence-clean — in particular on ordinary fenced
inputs with backtick or tilde fences, with or without a language tag, in
any case — though not on every string (see the counterexample). -/
theorem C9_strip_code_fences_idempotent_amended :
    (∀ s : String, fenceClean (strip_code_fences s).data = true →
      strip_code_fences (strip_code_fences s) = strip_code_fences s) ∧
    strip_code_fences (strip_code_fences "```sql\nSELECT 1\n```") =
      strip_code_fences "```sql\nSELECT 1\n```" ∧
    strip_code_fences (strip_code_fences "~~~SQL\nSELECT 1\n~~~") =
      strip_code_fences "~~~SQL\nSELECT 1\n~~~" ∧
    strip_code_fences (strip_code_fences "```\nSELECT 1\n```") =
      strip_code_fences "```\nSELECT 1\n```" := by
  refine ⟨?_, by decide, by decide, by decide⟩
  intro s h
  have hfix := strip_code_fences_fixed (strip_code_fences s).data h
  rw [strMkData] at hfix
  exact hfix

/-- C9 counterexample: on `"```\n```sql"` one strip yields `"```sql"` but a
second strip yields `""`, so stripping twice differs from stripping once. -/
theorem C9_strip_code_fences_counterexample :
    strip_code_fences (strip_code_fences "```\n```sql") ≠
      strip_code_fences "```\n```sql" := by decide

/-- Closed witness for the amended C9: a tilde-fenced lowercase-tagged
input, whose stripped form is fence-clean, is a fixed point of a second
strip. -/
theorem C9_strip_code_fences_idempotent_amended_witness :
    strip_code_fences (strip_code_fences "~~~sql\nSELECT 2\n~~~") =
      strip_code_fences "~~~sql\nSELECT 2\n~~~" :=
  C9_strip_code_fences_idempotent_amended.1 "~~~sql\nSELECT 2\n~~~" (by decide)

/-! ## Claim C8: the multi-line field extractor -/

/-- A lazy `.*?` over `body ++ rest'` stops exactly at the boundary when no
stop position occurs inside `body` and `rest'` is a stop position. -/
theorem lazyLen_append (stop : List Char → Bool) (body rest' : List Char)
    (hno : ∀ j, j < body.length → stop (body.drop j ++ rest') = false)
    (hstop : stop rest' = true) :
    lazyLen stop (body ++ rest') = body.length := by
  induction body with
  | nil =>
    cases rest' with
    | nil => rfl
    | cons c r =>
      show lazyLen stop (c :: r) = 0
      unfold lazyLen
      rw [if_pos hstop]
  | cons b bs ih =>
    have h0 : stop ((b :: bs) ++ rest') = false := by
      simpa using hno 0 (Nat.succ_pos _)
    show lazyLen stop (b :: (bs ++ rest')) = bs.length + 1
    unfold lazyLen
    rw [if_neg (by simp only [show b :: (bs ++ rest') = (b :: bs) ++ rest' from rfl, h0]; simp)]
    rw [ih (fun j hj => by simpa using hno (j + 1) (Nat.succ_lt_succ hj))]
    omega

theorem patAScan_cons_neg (fieldC : List Char) (c : Char) (rest : List Char)
    (h : matchCI fieldC (c :: rest) = false) :
    patAScan fieldC (c :: rest) = patAScan fieldC rest := by
  unfold patAScan
  rw [if_neg (by simp [h])]
  cases rest <;> rfl

theorem patAScan_cons_pos (fieldC : List Char) (c : Char) (rest : List Char)
    (h : matchCI fieldC (c :: rest) = true) :
    patAScan fieldC (c :: rest) =
      match wsNlLen ((c :: rest).drop fieldC.length) with
      | some k =>
        some ((((c :: rest).drop fieldC.length).drop k).take
          (lazyLen stopCondA (((c :: rest).drop fieldC.length).drop k)))
      | none => patAScan fieldC rest := by
  unfold patAScan
  rw [if_pos (by simp [h])]
  cases wsNlLen ((c :: rest).drop fieldC.length) with
  | some k => rfl
  | none => cases rest <;> rfl

/-- The label scan skips a prefix at which the label never matches. -/
theorem patAScan_append (fieldC pre X : List Char)
    (h : ∀ j, j < pre.length → matchCI fieldC ((pre ++ X).drop j) = false) :
    patAScan fieldC (pre ++ X) = patAScan fieldC X := by
  induction pre with
  | nil => rfl
  | cons p ps ih =>
    have h0 : matchCI fieldC (p :: (ps ++ X)) = false := by
      simpa using h 0 (Nat.succ_pos _)
    calc patAScan fieldC ((p :: ps) ++ X)
        = patAScan fieldC (p :: (ps ++ X)) := rfl
      _ = patAScan fieldC (ps ++ X) := patAScan_cons_neg _ _ _ h0
      _ = patAScan fieldC X := ih (fun j hj => by simpa using h (j + 1) (Nat.succ_lt_succ hj))

/-- The lowercased label (with colon) matches case-insensitively at its own
occurrence. -/
theorem matchCI_label (field : String) (Y : List Char) :
    matchCI (lowerL (field.data ++ [':'])) (field.data ++ ':' :: Y) = true := by
  unfold matchCI
  simp only [beq_iff_eq]
  rw [show field.data ++ ':' :: Y = (field.data ++ [':']) ++ Y from by simp]
  rw [show (lowerL (field.data ++ [':'])).length = ((field.data ++ [':']) : List Char).length
    from by simp [lowerL]]
  rw [List.take_left]

theorem wsNlLen_of_takeWhile_nl (cs : List Char) (h : cs.takeWhile isPyWs = ['\n']) :
    wsNlLen cs = some 1 := by
  unfold wsNlLen
  rw [h]
  rfl

/-- C8 (amended): for content of the shape
`pre ++ "FIELD:" ++ "\n" ++ body ++ "\n" ++ rest`, where the label does not
occur (case-insensitively) inside `pre`, `body` starts with a
non-whitespace character and contains no terminating line, and `rest`
begins with a label-like token (letters of either case or underscores
followed by a colon — the `[A-Z_]+` class is matched case-insensitively
because the pattern carries `re.IGNORECASE`), the extractor captures
exactly `body`, stripped of whitespace and code fences. -/
theorem C8_extract_sql_block_amended :
    ∀ (pre body restL : List Char) (field : String),
      (∀ j, j < pre.length →
        matchCI (lowerL (field.data ++ [':']))
          ((pre ++ (field.data ++ ':' :: '\n' :: (body ++ '\n' :: restL))).drop j) = false) →
      body ≠ [] →
      body.takeWhile isPyWs = [] →
      labelTokenAt restL = true →
      (∀ j, j < body.length → stopCondA (body.drop j ++ '\n' :: restL) = false) →
      extract_sql_block
        (String.mk (pre ++ (field.data ++ ':' :: '\n' :: (body ++ '\n' :: restL)))) field =
        strip_code_fences (String.mk (pyStripL body)) := by
  intro pre body restL field hpre hne hws hlab hno
  have hrestL : ∃ r rs, restL = r :: rs := by
    cases hr : restL with
    | nil =>
      rw [hr] at hlab
      cases hlab
    | cons r rs => exact ⟨r, rs, rfl⟩
  obtain ⟨r, rs, hr⟩ := hrestL
  have hstop : stopCondA ('\n' :: restL) = true := by
    rw [hr]
    show (if ('\n' : Char) = '\n' then
      (if (r :: rs : List Char) = [] then true else labelTokenAt (r :: rs)) else false) = true
    rw [if_pos rfl, if_neg (by simp)]
    rw [← hr]
    exact hlab
  have hscan : patAScan (lowerL (field.data ++ [':']))
      (pre ++ (field.data ++ ':' :: '\n' :: (body ++ '\n' :: restL))) = some body := by
    rw [patAScan_append (lowerL (field.data ++ [':'])) pre
      (field.data ++ ':' :: '\n' :: (body ++ '\n' :: restL)) hpre]
    obtain ⟨x, xs, hX⟩ :
        ∃ x xs, field.data ++ ':' :: '\n' :: (body ++ '\n' :: restL) = x :: xs := by
      cases hf : field.data with
      | nil => exact ⟨':', '\n' :: (body ++ '\n' :: restL), by simp⟩
      | cons f fs => exact ⟨f, fs ++ ':' :: '\n' :: (body ++ '\n' :: restL), by simp⟩
    have hdrop : (field.data ++ ':' :: '\n' :: (body ++ '\n' :: restL)).drop
        (lowerL (field.data ++ [':'])).length = '\n' :: (body ++ '\n' :: restL) := by
      rw [show field.data ++ ':' :: '\n' :: (body ++ '\n' :: restL) =
        (field.data ++ [':']) ++ '\n' :: (body ++ '\n' :: restL) from by simp]
      rw [show (lowerL (field.data ++ [':'])).length = ((field.data ++ [':']) : List Char).length
        from by simp [lowerL]]
      exact List.drop_left _ _
    have hwsnl : wsNlLen ('\n' :: (body ++ '\n' :: restL)) = some 1 := by
      apply wsNlLen_of_takeWhile_nl
      rw [List.takeWhile_cons_of_pos (by decide)]
      cases body with
      | nil => cases hne rfl
      | cons b bs =>
        have hbws : isPyWs b = false := by
          by_cases hw : isPyWs b
          · rw [List.takeWhile_cons_of_pos hw] at hws
            cases hws
          · simpa using hw
        rw [List.cons_append, List.takeWhile_cons_of_neg (by simp [hbws])]
    have hlazy : lazyLen stopCondA (body ++ '\n' :: restL) = body.length :=
      lazyLen_append _ _ _ hno hstop
    rw [hX, patAScan_cons_pos _ _ _ (hX ▸ matchCI_label field ('\n' :: (body ++ '\n' :: restL)))]
    rw [← hX, hdrop, hwsnl]
    show some (((('\n' :: (body ++ '\n' :: restL))).drop 1).take
      (lazyLen stopCondA ((('\n' :: (body ++ '\n' :: restL))).drop 1))) = some body
    rw [show (('\n' :: (body ++ '\n' :: restL))).drop 1 = body ++ '\n' :: restL from rfl]
    rw [hlazy, List.take_left]
  unfold extract_sql_block
  simp only [hscan]

/-- C8 counterexample: with `re.IGNORECASE` the terminating class `[A-Z_]+`
also matches lowercase, so the line `note: x` terminates the captured
block: the extractor returns `"SELECT 1"` where the claim requires the
block to extend to the next all-caps label, i.e. `"SELECT 1\nnote: x"`. -/
theorem C8_extract_sql_block_counterexample :
    extract_sql_block "FIXED_SQL:\nSELECT 1\nnote: x\nVERIFICATION_QUERY:\nSELECT 2"
      "FIXED_SQL" = "SELECT 1" ∧
    ("SELECT 1" : String) ≠ "SELECT 1\nnote: x" := ⟨by decide, by decide⟩

/-- Closed witness for the amended C8 at a concrete decomposition. -/
theorem C8_extract_sql_block_amended_witness :
    extract_sql_block
      (String.mk (([] : List Char) ++ ("FIXED_SQL".data ++ ':' :: '\n' ::
        ("SELECT 1".data ++ '\n' :: "VERIFICATION_QUERY:\nSELECT 2".data))))
      "FIXED_SQL" =
      strip_code_fences (String.mk (pyStripL "SELECT 1".data)) :=
  C8_extract_sql_block_amended [] "SELECT 1".data "VERIFICATION_QUERY:\nSELECT 2".data
    "FIXED_SQL" (by intro j hj; cases hj) (by decide) (by decide) (by decide) (by decide)

/-! ## Protocol negotiator and agent loop: `src/llm.py` / `src/agent.py` -/

/-- A JSON value, the shape of `json.loads` results (integers suffice for
numbers in this development; the loop treats parsed values opaquely). -/
inductive JsonValue where
  | null
  | bool (b : Bool)
  | num (n : Int)
  | str (s : String)
  | arr (xs : List JsonValue)
  | obj (fields : List (String × JsonValue))

/-- Output of one `_resolve_mode` call: the mode used for this chat call,
the new cached `_resolved_mode`, and whether the one-token probe request
was issued. -/
structure ResolveOut where
  mode : String
  cache : Option String
  probed : Bool
deriving DecidableEq, Repr

/-- Embedding of `OllamaClient._resolve_mode` (llm.py lines 184-216) as a
single resolution step.  `tool_mode` is the configured mode, `resolved`
the cached `_resolved_mode` (only ever unset, `"native"` or
`"structured"`, so Python truthiness is modelled by `Option`), `hasTools`
whether this chat call carries tool specs, and `probe` the outcome the
probe request would have (`Except.error` models a raised exception with
its message). -/
def resolve_mode (tool_mode : String) (resolved : Option String) (hasTools : Bool)
    (probe : Except String Unit) : ResolveOut :=
  match resolved with
  | some m => ⟨m, some m, false⟩
  | none =>
    if tool_mode = "native" then ⟨"native", some "native", false⟩
    else if tool_mode = "structured" then ⟨"structured", some "structured", false⟩
    else if hasTools then
      match probe with
      | Except.ok _ => ⟨"native", some "native", true⟩
      | Except.error e =>
        if containsSub "does not support tools".data e.data then
          ⟨"structured", some "structured", true⟩
        else ⟨"native", some "native", true⟩
    else ⟨"native", some "native", false⟩

/-- A conversation message. -/
structure Msg where
  role : String
  content : String
deriving DecidableEq, Repr

/-- A tool call as consumed by the agent loop (`.function.name` and
`.function.arguments` of the duck-typed tool-call object). -/
structure AToolCall where
  name : String
  arguments : JsonValue

/-- Unified message interface (`MessageProxy`): `content` is a string (the
loop's `message.content or ""` is the identity on strings), `tool_calls`
an optional list — in Python both `None` and `[]` are falsy, so the loop
branches on `some (tc :: tcs)`. -/
structure AMessageProxy where
  content : String
  tool_calls : Option (List AToolCall)

structure AResponseProxy where
  message : AMessageProxy

/-- The step loop of `AgentLoop.run` (agent.py lines 68-136).  `chat` is
the Negotiator oracle (`Except.error` models a raised transport
exception), `execTool` the Tool Registry oracle (tool implementations
never raise).  `rem` counts the remaining iterations
(`maxSteps - step + 1`), keeping the recursion structural; `step` is the
loop counter, so `steps_taken = step` on early exits and `maxSteps` on
exhaustion. -/
def runAux (chat : List Msg → Except String AResponseProxy)
    (execTool : String → JsonValue → String) (maxSteps : Nat) :
    Nat → Nat → List Msg → DiagnosisReport
  | 0, _, _ =>
    { status := DiagnosisStatus.maxStepsReached
      steps_taken := maxSteps
      raw_response := "Agent reached maximum steps without providing a diagnosis." }
  | rem + 1, step, hist =>
    match chat hist with
    | Except.error e =>
      { status := DiagnosisStatus.error
        steps_taken := step
        raw_response := "LLM Error: " ++ e }
    | Except.ok resp =>
      let message := resp.message
      let hist1 := hist ++ [⟨"assistant", message.content⟩]
      match message.tool_calls with
      | some (tc :: tcs) =>
        let hist2 := hist1 ++ (tc :: tcs).map (fun t =>
          (⟨"user", "Tool \x27" ++ t.name ++ "\x27 returned:\n" ++ execTool t.name t.arguments⟩
            : Msg))
        runAux chat execTool maxSteps rem (step + 1) hist2
      | _ =>
        let report := parse_diagnosis message.content
        { report with steps_taken := step }

/-- Embedding of `AgentLoop.run` (agent.py lines 44-136); the prompt texts
are parameters because `_build_user_prompt` reads excluded collaborators
(file system, database). -/
def AgentLoop.run (chat : List Msg → Except String AResponseProxy)
    (execTool : String → JsonValue → String)
    (systemPrompt userPrompt : String) (maxSteps : Nat) : DiagnosisReport :=
  runAux chat execTool maxSteps maxSteps 1
    [⟨"system", systemPrompt⟩, ⟨"user", userPrompt⟩]

/-- The tool-call object built by `_parse_tool_call`: `data.get("tool", "")`
and `data.get("args", {})` of the parsed JSON object. -/
structure SFunctionCall where
  name : JsonValue
  arguments : JsonValue

/-- Embedding of `OllamaClient._parse_tool_call` (llm.py lines 323-356).
`jp` is the `json.loads` oracle returning the parsed object's fields
(`_extract_balanced_json` guarantees the candidate starts with `{`, so a
successful parse is an object) or `none` on a decode error.  The marker
search `re.search(r"TOOL_CALL:\s*")` ends after the greedy whitespace
run. -/
def parse_tool_call (jp : String → Option (List (String × JsonValue))) (content : String) :
    Option SFunctionCall :=
  let cs := content.data
  match firstSubstrIdx "TOOL_CALL:".data cs with
  | none => none
  | some mStart =>
    let mEnd := mStart + 10 + ((cs.drop (mStart + 10)).takeWhile isPyWs).length
    let jsonStart :=
      match firstCharFrom cs '\x7b' (mEnd - 1) with
      | some j => some j
      | none => firstCharFrom cs '\x7b' mStart
    match jsonStart with
    | none => none
    | some j =>
      match extract_balanced_json content j with
      | none => none
      | some js =>
        match jp js with
        | none => none
        | some data =>
          some ⟨(data.lookup "tool").getD (JsonValue.str ""),
            (data.lookup "args").getD (JsonValue.obj [])⟩

structure SMessageProxy where
  content : String
  tool_calls : Option (List SFunctionCall)

/-- The prefix of `content` before the first `TOOL_CALL:` marker
(`content.split("TOOL_CALL:")[0]`). -/
def beforeMarker (content : String) : String :=
  String.mk (content.data.take
    ((firstSubstrIdx "TOOL_CALL:".data content.data).getD content.data.length))

/-- Embedding of the response post-processing of
`OllamaClient._chat_structured` (llm.py lines 303-321): either one parsed
tool call with the visible content truncated to the stripped text before
the marker, or the content unchanged as a final answer. -/
def chat_structured_result (jp : String → Option (List (String × JsonValue)))
    (content : String) : SMessageProxy :=
  match parse_tool_call jp content with
  | some tc => ⟨pyStrip (beforeMarker content), some [tc]⟩
  | none => ⟨content, none⟩

/-! ## Claim C3: step-budget exhaustion of the agent loop -/

/-- C3: if every chat response carries at least one tool call (so no final
answer ever arrives), the loop terminates with `MaxStepsReached`,
`steps_taken = maxSteps`, and the fixed explanatory string — in particular
for `maxSteps = 1` after step 1. -/
theorem C3_agent_loop_max_steps :
    ∀ (chat : List Msg → Except String AResponseProxy)
      (execTool : String → JsonValue → String)
      (systemPrompt userPrompt : String) (maxSteps : Nat),
      (∀ hist, ∃ resp, chat hist = Except.ok resp ∧
        ∃ tc tcs, resp.message.tool_calls = some (tc :: tcs)) →
      AgentLoop.run chat execTool systemPrompt userPrompt maxSteps =
        { status := DiagnosisStatus.maxStepsReached
          steps_taken := maxSteps
          raw_response := "Agent reached maximum steps without providing a diagnosis." } := by
  intro chat execTool sp up maxSteps hchat
  suffices h : ∀ rem step hist, runAux chat execTool maxSteps rem step hist =
      { status := DiagnosisStatus.maxStepsReached
        steps_taken := maxSteps
        raw_response := "Agent reached maximum steps without providing a diagnosis." } by
    exact h maxSteps 1 _
  intro rem
  induction rem with
  | zero =>
    intro step hist
    rfl
  | succ r ih =>
    intro step hist
    obtain ⟨resp, hok, tc, tcs, htc⟩ := hchat hist
    unfold runAux
    rw [hok]
    simp only [htc]
    exact ih _ _

/-- Closed witness for C3: with `maxSteps = 1` and a first response that
requests a tool call, the loop stops after step 1 with `MaxStepsReached`. -/
theorem C3_agent_loop_max_steps_witness :
    AgentLoop.run
      (fun _ => Except.ok ⟨⟨"thinking", some [⟨"execute_sql", JsonValue.null⟩]⟩⟩)
      (fun _ _ => "result") "sys" "user" 1 =
      { status := DiagnosisStatus.maxStepsReached
        steps_taken := 1
        raw_response := "Agent reached maximum steps without providing a diagnosis." } :=
  C3_agent_loop_max_steps _ _ "sys" "user" 1
    (fun _ => ⟨_, rfl, ⟨"execute_sql", JsonValue.null⟩, [], rfl⟩)

/-! ## Claim C4: mode resolution of the protocol negotiator -/

/-- C4 (amended): the mode is computed once and cached (a cached value is
returned unchanged with no probe); explicit modes are used without
probing; in auto mode a call WITH tool specs issues the probe and resolves
to `structured` exactly when the probe error message indicates tools are
unsupported (any other outcome resolves to `native`); and — the amended
part — an auto-mode call WITHOUT tool specs resolves to `native` and
caches it without ever probing. -/
theorem C4_resolve_mode_amended :
    (∀ tool_mode m hasTools probe,
      resolve_mode tool_mode (some m) hasTools probe = ⟨m, some m, false⟩) ∧
    (∀ hasTools probe,
      resolve_mode "native" none hasTools probe = ⟨"native", some "native", false⟩ ∧
      resolve_mode "structured" none hasTools probe =
        ⟨"structured", some "structured", false⟩) ∧
    (∀ e, containsSub "does not support tools".data e.data = true →
      resolve_mode "auto" none true (Except.error e) =
        ⟨"structured", some "structured", true⟩) ∧
    (∀ e, containsSub "does not support tools".data e.data = false →
      resolve_mode "auto" none true (Except.error e) = ⟨"native", some "native", true⟩) ∧
    (resolve_mode "auto" none true (Except.ok ()) = ⟨"native", some "native", true⟩) ∧
    (∀ probe, (resolve_mode "auto" none true probe).probed = true) ∧
    (∀ probe, resolve_mode "auto" none false probe = ⟨"native", some "native", false⟩) := by
  refine ⟨fun _ _ _ _ => rfl, fun _ _ => ⟨rfl, rfl⟩, ?_, ?_, rfl, ?_, fun _ => rfl⟩
  · intro e he
    unfold resolve_mode
    dsimp only
    simp only [he]
    decide
  · intro e he
    unfold resolve_mode
    dsimp only
    simp only [he]
    decide
  · intro probe
    cases probe with
    | ok u => rfl
    | error e =>
      unfold resolve_mode
      dsimp only
      cases he : containsSub "does not support tools".data e.data <;>
        simp only [he] <;> decide

/-- C4 counterexample: in auto mode a first chat call WITHOUT tool specs
resolves to native and caches it; the first call that DOES include tool
specs then issues no probe and stays native, even though the probe (had it
been issued) would have raised an unsupported-tools error — contradicting
the claim that the probe is issued on the first call that includes tool
specs and that such an error yields `structured`. -/
theorem C4_resolve_mode_counterexample :
    (resolve_mode "auto"
      (resolve_mode "auto" none false (Except.error "does not support tools")).cache
      true (Except.error "does not support tools")).probed = false ∧
    (resolve_mode "auto"
      (resolve_mode "auto" none false (Except.error "does not support tools")).cache
      true (Except.error "does not support tools")).mode = "native" := by
  exact ⟨rfl, rfl⟩

/-- Closed witness for the amended C4: the probe outcome "model does not
support tools" resolves an auto-mode tool-bearing call to structured. -/
theorem C4_resolve_mode_amended_witness :
    resolve_mode "auto" none true (Except.error "model X does not support tools") =
      ⟨"structured", some "structured", true⟩ :=
  C4_resolve_mode_amended.2.2.1 "model X does not support tools" (by decide)

/-! ## Claim C5: structured-mode tool-call parsing -/

/-- C5: in structured mode, a response whose content yields a parsed tool
call produces exactly one tool call — whose name and arguments are the
`tool` and `args` fields of the balanced JSON object after the first
`TOOL_CALL:` marker — with the visible content truncated to the stripped
text before the marker; any content with no extractable tool call is
returned unchanged with no tool calls. -/
theorem C5_chat_structured_spec :
    ∀ (jp : String → Option (List (String × JsonValue))) (content : String),
      (∀ tc, parse_tool_call jp content = some tc →
        chat_structured_result jp content =
          ⟨pyStrip (beforeMarker content), some [tc]⟩) ∧
      (parse_tool_call jp content = none →
        chat_structured_result jp content = ⟨content, none⟩) ∧
      (∀ tc, parse_tool_call jp content = some tc →
        ∃ m j js data,
          firstSubstrIdx "TOOL_CALL:".data content.data = some m ∧
          extract_balanced_json content j = some js ∧
          jp js = some data ∧
          tc = ⟨(data.lookup "tool").getD (JsonValue.str ""),
            (data.lookup "args").getD (JsonValue.obj [])⟩) := by
  intro jp content
  refine ⟨?_, ?_, ?_⟩
  · intro tc h
    unfold chat_structured_result
    rw [h]
  · intro h
    unfold chat_structured_result
    rw [h]
  · intro tc h
    unfold parse_tool_call at h
    cases hm : firstSubstrIdx "TOOL_CALL:".data content.data with
    | none =>
      simp only [hm] at h
      cases h
    | some m =>
      simp only [hm] at h
      cases hj : (match firstCharFrom content.data '\x7b'
          (m + 10 + ((content.data.drop (m + 10)).takeWhile isPyWs).length - 1) with
        | some j => some j
        | none => firstCharFrom content.data '\x7b' m) with
      | none =>
        simp only [hj] at h
        cases h
      | some j =>
        simp only [hj] at h
        cases hx : extract_balanced_json content j with
        | none =>
          simp only [hx] at h
          cases h
        | some js =>
          simp only [hx] at h
          cases hd : jp js with
          | none =>
            simp only [hd] at h
            cases h
          | some data =>
            simp only [hd] at h
            injection h with h
            exact ⟨m, j, js, data, rfl, hx, hd, h.symm⟩

/-- Closed witness for C5: a response with reasoning text, a `TOOL_CALL:`
marker and a parsable JSON object yields one tool call built from its
`tool`/`args` fields and the stripped preceding text. -/
theorem C5_chat_structured_spec_witness :
    chat_structured_result
      (fun s =>
        if s = "\x7b\"tool\": \"inspect_schema\", \"args\": \x7b\x7d\x7d" then
          some [("tool", JsonValue.str "inspect_schema"), ("args", JsonValue.obj [])]
        else none)
      "I will inspect.\nTOOL_CALL: \x7b\"tool\": \"inspect_schema\", \"args\": \x7b\x7d\x7d" =
      ⟨"I will inspect.", some [⟨JsonValue.str "inspect_schema", JsonValue.obj []⟩]⟩ := by
  have h := (C5_chat_structured_spec
      (fun s =>
        if s = "\x7b\"tool\": \"inspect_schema\", \"args\": \x7b\x7d\x7d" then
          some [("tool", JsonValue.str "inspect_schema"), ("args", JsonValue.obj [])]
        else none)
      "I will inspect.\nTOOL_CALL: \x7b\"tool\": \"inspect_schema\", \"args\": \x7b\x7d\x7d").1
    ⟨JsonValue.str "inspect_schema", JsonValue.obj []⟩ (by rfl)
  rw [h]
  rfl

/-- Closed witness for C1: the boundary pair at overlap ratio exactly 0.5
matches, extracted from the claim theorem. -/
theorem C1_score_root_cause_spec_witness :
    score_root_cause "alpha beta" "alpha beta gamma delta" = true :=
  C1_score_root_cause_spec.2.1
